import Mathlib

/-!
Verification of the lookout-sdk-ml core event listener
(`src/lookout/core/event_listener.py`).

The pipeline around each gRPC call is a fixed decorator chain
`set_logging_context (timeit (log_exceptions (handle _)))`; we embed every
stage as a state transformer over an explicit per-call state: the gRPC
servicer context, the remaining perf-counter readings, the metrics emitted
via `record_event`, the log lines, and the thread-local structured-logging
context installed by `slogging.set_context`.
-/

namespace Lookout

/-- Modelled from the spec: the protobuf event schema
(`lookout.core.api.event_pb2`) is not under `src/`; a reference pointer
carries an internal repository URL and a commit hash, exactly the two
fields `event_listener.py` reads. -/
structure ReferencePointer where
  internal_repository_url : String
  hash : String
  deriving DecidableEq, Repr

/-- Modelled from the spec: a commit revision is a base/head pair of
reference pointers. -/
structure CommitRevision where
  base : ReferencePointer
  head : ReferencePointer
  deriving DecidableEq, Repr

/-- Modelled from the spec: a ReviewEvent carries a base/head
commit-revision pair. -/
structure ReviewEvent where
  commit_revision : CommitRevision
  deriving DecidableEq, Repr

/-- Modelled from the spec: a PushEvent carries a head commit revision and
a count of distinct commits. -/
structure PushEvent where
  commit_revision : CommitRevision
  distinct_commits : Nat
  deriving DecidableEq, Repr

/-- The two inbound event variants handled by the listener. -/
inductive Event
  | review (e : ReviewEvent)
  | push (e : PushEvent)
  deriving DecidableEq, Repr

/-- `type(request).__name__` for the two event classes. -/
def Event.typeName : Event → String
  | .review _ => "ReviewEvent"
  | .push _ => "PushEvent"

/-- Modelled from the spec: the Response
(`lookout.core.api.service_analyzer_pb2.EventResponse`, not under `src/`)
is a default/empty acknowledgment unless the handler populates it. -/
structure EventResponse where
  analyzer_version : String := ""
  comments : List String := []
  deriving DecidableEq, Repr

/-- `EventResponse()`: the default-constructed response. -/
def EventResponse.empty : EventResponse := {}

/-- A Python exception as observed by `log_exceptions`: the rendering of
`type(e)` and the rendering of `e` itself. -/
structure PyExn where
  kind : String
  msg : String
  deriving DecidableEq, Repr

/-- The only status code the listener ever sets. -/
inductive StatusCode
  | INTERNAL
  deriving DecidableEq, Repr

/-- The gRPC servicer context as used by the listener: invocation metadata
and peer are supplied by the transport; `start_time`, `error`, `code` and
`details` are the attributes the pipeline itself writes (`getattr` with a
default models an absent attribute as `none` / `false`). -/
structure Ctx where
  invocation_metadata : List (String × String)
  peerAddr : String
  start_time : Option ℚ := none
  error : Bool := false
  code : Option StatusCode := none
  details : Option String := none
  deriving DecidableEq, Repr

/-- One structured log line emitted by the pipeline. -/
inductive LogEntry
  | newEvent (typeName : String)
  | ok (delta : ℚ)
  | failWithDelta (delta : ℚ)
  | failUnknown
  deriving DecidableEq, Repr

/-- A value stored in the structured-logging context: the extractors store
strings and one integer, and the `meta` key stores a string-to-string
dict. -/
inductive CtxValue
  | str (s : String)
  | nat (n : Nat)
  | strDict (d : List (String × String))
  deriving DecidableEq, Repr

/-- `extract_review_event_context` from the source. -/
def extract_review_event_context (request : ReviewEvent) : List (String × CtxValue) :=
  [("type", CtxValue.str "ReviewEvent"),
   ("url_base", CtxValue.str request.commit_revision.base.internal_repository_url),
   ("url_head", CtxValue.str request.commit_revision.head.internal_repository_url),
   ("commit_base", CtxValue.str request.commit_revision.base.hash),
   ("commit_head", CtxValue.str request.commit_revision.head.hash)]

/-- `extract_push_event_context` from the source. -/
def extract_push_event_context (request : PushEvent) : List (String × CtxValue) :=
  [("type", CtxValue.str "PushEvent"),
   ("url", CtxValue.str request.commit_revision.head.internal_repository_url),
   ("head", CtxValue.str request.commit_revision.head.hash),
   ("count", CtxValue.nat request.distinct_commits)]

/-- `request_log_context_extractors`: the type-keyed extractor table. -/
def request_log_context_extractor : Event → List (String × CtxValue)
  | .review r => extract_review_event_context r
  | .push p => extract_push_event_context p

/-- Python dict assignment `d[k] = v` on a string-valued dict preserved as
an insertion-ordered association list: update the existing entry for `k`
in place, else append. -/
def strDictInsert : List (String × String) → String → String → List (String × String)
  | [], k, v => [(k, v)]
  | p :: rest, k, v =>
    if p.1 = k then (k, v) :: rest else p :: strDictInsert rest k v

/-- Dict lookup on the association-list model. -/
def strDictLookup : List (String × String) → String → Option String
  | [], _ => none
  | p :: rest, k => if p.1 = k then some p.2 else strDictLookup rest k

/-- The `meta` dict built by `wrapped_set_logging_context`:
`meta = {}` followed by `meta[md.key] = md.value` over the invocation
metadata. -/
def buildMeta (md : List (String × String)) : List (String × String) :=
  md.foldl (fun d kv => strDictInsert d kv.1 kv.2) []

/-- Lookup on the structured-logging context. -/
def ctxLookup : List (String × CtxValue) → String → Option CtxValue
  | [], _ => none
  | p :: rest, k => if p.1 = k then some p.2 else ctxLookup rest k

/-- Tail of `stringcase.snakecase`: every upper-case letter becomes an
underscore followed by its lower-case form. -/
def snakecaseTail : List Char → List Char
  | [] => []
  | c :: rest =>
    (if c.isUpper then ['_', c.toLower] else [c]) ++ snakecaseTail rest

/-- `stringcase.snakecase`: dashes, dots and whitespace become
underscores, the first character is lower-cased, and every later
upper-case letter becomes an underscore plus its lower-case form. -/
def snakecase (s : String) : String :=
  let cs := s.data.map fun c =>
    if c = '-' ∨ c = '.' ∨ c.isWhitespace then '_' else c
  match cs with
  | [] => ""
  | c :: rest => String.mk (c.toLower :: snakecaseTail rest)

/-- The `EventHandlers` interface: the two callbacks a concrete analyzer
implements.  A callback either returns a response or raises. -/
structure EventHandlers where
  process_review_event : ReviewEvent → Except PyExn EventResponse
  process_push_event : PushEvent → Except PyExn EventResponse

/-- `getattr(self.handlers, name)`: resolve a method of `EventHandlers`
by name.  The two methods exist under exactly their declared names; any
other name is missing (Python would raise AttributeError, returned as
`none` here).  Calling a method with the other event variant never
happens in the listener; it is modelled as a TypeError-like failure. -/
def EventHandlers.getattrMethod (h : EventHandlers) (name : String) :
    Option (Event → Except PyExn EventResponse) :=
  if name = "process_review_event" then
    some fun e =>
      match e with
      | .review r => h.process_review_event r
      | .push _ => Except.error ⟨"TypeError", "process_review_event expects a ReviewEvent"⟩
  else if name = "process_push_event" then
    some fun e =>
      match e with
      | .push p => h.process_push_event p
      | .review _ => Except.error ⟨"TypeError", "process_push_event expects a PushEvent"⟩
  else none

/-- The per-call state threaded through the pipeline: the servicer
context, the remaining `time.perf_counter()` readings, the metrics emitted
by `record_event`, the log lines, and the installed logging context. -/
structure PState where
  ctx : Ctx
  clock : List ℚ
  metrics : List (String × ℚ)
  logs : List LogEntry
  logCtx : Option (List (String × CtxValue))
  deriving DecidableEq, Repr

/-- `time.perf_counter()`: consume the next reading (0 when the supplied
trace is exhausted). -/
def perf_counter (clock : List ℚ) : ℚ × List ℚ :=
  match clock with
  | [] => (0, [])
  | t :: rest => (t, rest)

/-- The type of a (decorated) servicer method: given the handlers, the
request and the per-call state, it either returns a response or raises,
and yields the updated state. -/
abbrev Method := EventHandlers → Event → PState → Except PyExn EventResponse × PState

/-- The `handle` decorator: derive the callback name from the request's
type name, resolve it on the handlers, and invoke it with the request.
The wrapped function is ignored, as in the source. -/
def handle (_func : Method) : Method := fun self request st =>
  let method_name := "process_" ++ snakecase request.typeName
  match self.getattrMethod method_name with
  | some m => (m request, st)
  | none => (Except.error ⟨"AttributeError", "EventHandlers has no such method"⟩, st)

/-- The `log_exceptions` decorator: pass successes through; catch any
raise, log FAIL with the elapsed time when `context.start_time` exists
(else FAIL ?), set the INTERNAL code and the details string, set the
error flag, emit the "error" metric with count 1, and return a default
`EventResponse`. -/
def log_exceptions (func : Method) : Method := fun self request st =>
  match func self request st with
  | (Except.ok r, st1) => (Except.ok r, st1)
  | (Except.error e, st1) =>
    let st2 :=
      match st1.ctx.start_time with
      | some t0 =>
        let pc := perf_counter st1.clock
        { st1 with clock := pc.2, logs := st1.logs ++ [LogEntry.failWithDelta (pc.1 - t0)] }
      | none => { st1 with logs := st1.logs ++ [LogEntry.failUnknown] }
    let st3 :=
      { st2 with
        ctx :=
          { st2.ctx with
            code := some StatusCode.INTERNAL,
            details := some (e.kind ++ ": " ++ e.msg),
            error := true },
        metrics := st2.metrics ++ [("error", (1 : ℚ))] }
    (Except.ok EventResponse.empty, st3)

/-- The `timeit` decorator: read the perf counter, store it on the
context as `start_time`, run the wrapped call, and if the context carries
no error flag, emit the "request.<EventType>" metric with the elapsed
time and log OK.  A raise from the wrapped call propagates. -/
def timeit (func : Method) : Method := fun self request st =>
  let pc := perf_counter st.clock
  let start_time := pc.1
  let st1 := { st with clock := pc.2, ctx := { st.ctx with start_time := some start_time } }
  match func self request st1 with
  | (Except.error e, st2) => (Except.error e, st2)
  | (Except.ok r, st2) =>
    if st2.ctx.error = false then
      let pc2 := perf_counter st2.clock
      let delta := pc2.1 - start_time
      (Except.ok r,
       { st2 with
         clock := pc2.2,
         metrics := st2.metrics ++ [("request." ++ request.typeName, delta)],
         logs := st2.logs ++ [LogEntry.ok delta] })
    else (Except.ok r, st2)

/-- The `set_logging_context` decorator: extract the per-variant context,
fold the invocation metadata into a `meta` dict, add the `peer` address,
install the context, log "new <EventType>", and run the wrapped call. -/
def set_logging_context (func : Method) : Method := fun self request st =>
  let obj := request_log_context_extractor request
  let meta := buildMeta st.ctx.invocation_metadata
  let obj1 := obj ++ [("meta", CtxValue.strDict meta), ("peer", CtxValue.str st.ctx.peerAddr)]
  let st1 := { st with logCtx := some obj1, logs := st.logs ++ [LogEntry.newEvent request.typeName] }
  func self request st1

/-- The body of `NotifyReviewEvent` / `NotifyPushEvent` before decoration
(`pass`); never invoked, because `handle` ignores the wrapped function. -/
def notify_body : Method := fun _ _ st => (Except.ok EventResponse.empty, st)

/-- The full decorator chain shared by both entry points, outermost
first: `set_logging_context`, `timeit`, `log_exceptions`, `handle`. -/
def notifyPipeline : Method :=
  set_logging_context (timeit (log_exceptions (handle notify_body)))

/-- `NotifyReviewEvent`: the review entry point. -/
def NotifyReviewEvent (self : EventHandlers) (request : ReviewEvent) (st : PState) :
    Except PyExn EventResponse × PState :=
  notifyPipeline self (Event.review request) st

/-- `NotifyPushEvent`: the push entry point. -/
def NotifyPushEvent (self : EventHandlers) (request : PushEvent) (st : PState) :
    Except PyExn EventResponse × PState :=
  notifyPipeline self (Event.push request) st

/-- A fresh per-call state as the transport would supply it: metadata and
peer set, no `start_time`/`error`/`code`/`details` attributes yet, no
metrics or logs emitted. -/
def initState (md : List (String × String)) (peerAddr : String) (clock : List ℚ) : PState :=
  { ctx := { invocation_metadata := md, peerAddr := peerAddr },
    clock := clock, metrics := [], logs := [], logCtx := none }

/-- Run one call through the pipeline from a fresh state. -/
def runNotify (self : EventHandlers) (e : Event) (md : List (String × String))
    (peerAddr : String) (clock : List ℚ) : Except PyExn EventResponse × PState :=
  notifyPipeline self e (initState md peerAddr clock)

/-- The handler callback actually reached by `handle` for each variant. -/
def dispatch (self : EventHandlers) : Event → Except PyExn EventResponse
  | .review r => self.process_review_event r
  | .push p => self.process_push_event p

theorem snakecase_reviewEvent : snakecase "ReviewEvent" = "review_event" := rfl

theorem snakecase_pushEvent : snakecase "PushEvent" = "push_event" := rfl

theorem handle_review (f : Method) (self : EventHandlers) (re : ReviewEvent) (st : PState) :
    handle f self (Event.review re) st = (self.process_review_event re, st) := rfl

theorem handle_push (f : Method) (self : EventHandlers) (pe : PushEvent) (st : PState) :
    handle f self (Event.push pe) st = (self.process_push_event pe, st) := rfl

/-- The logging context the pipeline installs for a call. -/
def callLogCtx (e : Event) (md : List (String × String)) (peerAddr : String) :
    List (String × CtxValue) :=
  request_log_context_extractor e ++
    [("meta", CtxValue.strDict (buildMeta md)), ("peer", CtxValue.str peerAddr)]

/-- Closed form of the pipeline on a call whose handler succeeds. -/
theorem runNotify_ok (self : EventHandlers) (e : Event) (md : List (String × String))
    (peerAddr : String) (t0 t1 : ℚ) (r : EventResponse)
    (h : dispatch self e = Except.ok r) :
    runNotify self e md peerAddr [t0, t1] =
      (Except.ok r,
       { ctx := { invocation_metadata := md, peerAddr := peerAddr, start_time := some t0 },
         clock := [],
         metrics := [("request." ++ e.typeName, t1 - t0)],
         logs := [LogEntry.newEvent e.typeName, LogEntry.ok (t1 - t0)],
         logCtx := some (callLogCtx e md peerAddr) }) := by
  cases e with
  | review re =>
    simp only [dispatch] at h
    simp [runNotify, notifyPipeline, set_logging_context, timeit, log_exceptions,
      handle_review, initState, perf_counter, Event.typeName, callLogCtx,
      request_log_context_extractor, h]
  | push pe =>
    simp only [dispatch] at h
    simp [runNotify, notifyPipeline, set_logging_context, timeit, log_exceptions,
      handle_push, initState, perf_counter, Event.typeName, callLogCtx,
      request_log_context_extractor, h]

/-- Closed form of the pipeline on a call whose handler raises. -/
theorem runNotify_err (self : EventHandlers) (e : Event) (md : List (String × String))
    (peerAddr : String) (t0 t1 : ℚ) (ex : PyExn)
    (h : dispatch self e = Except.error ex) :
    runNotify self e md peerAddr [t0, t1] =
      (Except.ok EventResponse.empty,
       { ctx := { invocation_metadata := md, peerAddr := peerAddr, start_time := some t0,
                  error := true, code := some StatusCode.INTERNAL,
                  details := some (ex.kind ++ ": " ++ ex.msg) },
         clock := [],
         metrics := [("error", (1 : ℚ))],
         logs := [LogEntry.newEvent e.typeName, LogEntry.failWithDelta (t1 - t0)],
         logCtx := some (callLogCtx e md peerAddr) }) := by
  cases e with
  | review re =>
    simp only [dispatch] at h
    simp [runNotify, notifyPipeline, set_logging_context, timeit, log_exceptions,
      handle_review, initState, perf_counter, Event.typeName, callLogCtx,
      request_log_context_extractor, h]
  | push pe =>
    simp only [dispatch] at h
    simp [runNotify, notifyPipeline, set_logging_context, timeit, log_exceptions,
      handle_push, initState, perf_counter, Event.typeName, callLogCtx,
      request_log_context_extractor, h]

theorem strDictLookup_insert (d : List (String × String)) (k' v k : String) :
    strDictLookup (strDictInsert d k' v) k =
      if k' = k then some v else strDictLookup d k := by
  induction d with
  | nil => simp [strDictInsert, strDictLookup]
  | cons p rest ih =>
    by_cases h1 : p.1 = k'
    · by_cases h2 : k' = k
      · simp [strDictInsert, strDictLookup, h1, h2]
      · have h3 : ¬p.1 = k := fun hk => h2 (h1.symm.trans hk)
        simp [strDictInsert, strDictLookup, h1, h2, h3]
    · by_cases h2 : p.1 = k
      · have h3 : ¬k' = k := fun hk => h1 (h2.trans hk.symm)
        have h4 : ¬k = k' := fun hk => h1 (h2.trans hk)
        simp [strDictInsert, strDictLookup, h1, h2, h3, h4]
      · simp [strDictInsert, strDictLookup, h1, h2, ih]

theorem strDictLookup_foldl (md : List (String × String)) (d : List (String × String))
    (k : String) :
    strDictLookup (md.foldl (fun d kv => strDictInsert d kv.1 kv.2) d) k =
      md.foldl (fun acc kv => if kv.1 = k then some kv.2 else acc) (strDictLookup d k) := by
  induction md generalizing d with
  | nil => rfl
  | cons kv rest ih =>
    simp only [List.foldl_cons, ih, strDictLookup_insert]

/-- Lookup in the `meta` dict yields, for each key, the value of its last
occurrence in the invocation metadata. -/
theorem strDictLookup_buildMeta (md : List (String × String)) (k : String) :
    strDictLookup (buildMeta md) k =
      md.foldl (fun acc kv => if kv.1 = k then some kv.2 else acc) none := by
  simpa [buildMeta, strDictLookup] using strDictLookup_foldl md [] k

/-- A concrete review event used to instantiate hypotheses. -/
def sampleReview : ReviewEvent :=
  { commit_revision :=
    { base := { internal_repository_url := "file:///base", hash := "aaa" },
      head := { internal_repository_url := "file:///head", hash := "bbb" } } }

/-- Handlers whose callbacks raise ValueError("boom"). -/
def failingHandlers : EventHandlers :=
  { process_review_event := fun _ => Except.error ⟨"ValueError", "boom"⟩,
    process_push_event := fun _ => Except.error ⟨"ValueError", "boom"⟩ }

/-- A populated response, to observe that the pipeline does not replace
the handler's return value. -/
def richResponse : EventResponse :=
  { analyzer_version := "1.2.3", comments := ["looks good"] }

/-- Handlers whose callbacks succeed with `richResponse`. -/
def succeedingHandlers : EventHandlers :=
  { process_review_event := fun _ => Except.ok richResponse,
    process_push_event := fun _ => Except.ok richResponse }

/-- Handlers whose callbacks succeed with the default response. -/
def okHandlers : EventHandlers :=
  { process_review_event := fun _ => Except.ok EventResponse.empty,
    process_push_event := fun _ => Except.ok EventResponse.empty }

/-- Claim C1: every call returns exactly one response, and emits exactly
one metric — the success metric "request.<EventType>" with the elapsed
duration when the error flag stays unset, or the "error" metric with
count 1 when the handler raised; never both, never neither. -/
theorem c1_exactly_one_response_and_metric (self : EventHandlers) (e : Event)
    (md : List (String × String)) (peerAddr : String) (t0 t1 : ℚ) :
    (runNotify self e md peerAddr [t0, t1]).1 =
      Except.ok (match dispatch self e with
                 | Except.ok r => r
                 | Except.error _ => EventResponse.empty) ∧
    (runNotify self e md peerAddr [t0, t1]).2.metrics =
      (match dispatch self e with
       | Except.ok _ => [("request." ++ e.typeName, t1 - t0)]
       | Except.error _ => [("error", (1 : ℚ))]) := by
  cases h : dispatch self e with
  | ok r =>
    rw [runNotify_ok self e md peerAddr t0 t1 r h]
    exact ⟨rfl, rfl⟩
  | error ex =>
    rw [runNotify_err self e md peerAddr t0 t1 ex h]
    exact ⟨rfl, rfl⟩

/-- Claim C2: when the handler raises, the entry point does not propagate
the exception: it sets the INTERNAL status code, sets the details string
to "<ErrorKind>: <message>", marks the error flag, and returns a default
EventResponse. -/
theorem c2_handler_exception_contained (self : EventHandlers) (e : Event)
    (md : List (String × String)) (peerAddr : String) (t0 t1 : ℚ) (ex : PyExn)
    (h : dispatch self e = Except.error ex) :
    (runNotify self e md peerAddr [t0, t1]).1 = Except.ok EventResponse.empty ∧
    (runNotify self e md peerAddr [t0, t1]).2.ctx.code = some StatusCode.INTERNAL ∧
    (runNotify self e md peerAddr [t0, t1]).2.ctx.details =
      some (ex.kind ++ ": " ++ ex.msg) ∧
    (runNotify self e md peerAddr [t0, t1]).2.ctx.error = true := by
  rw [runNotify_err self e md peerAddr t0 t1 ex h]
  exact ⟨rfl, rfl, rfl, rfl⟩

/-- Witness for C2 at a concrete raising handler. -/
theorem c2_contained_witness :
    (runNotify failingHandlers (Event.review sampleReview) [] "ipv4:1.2.3.4" [0, 1]).1 =
      Except.ok EventResponse.empty ∧
    (runNotify failingHandlers (Event.review sampleReview) [] "ipv4:1.2.3.4" [0, 1]).2.ctx.code =
      some StatusCode.INTERNAL ∧
    (runNotify failingHandlers (Event.review sampleReview) [] "ipv4:1.2.3.4" [0, 1]).2.ctx.details =
      some "ValueError: boom" ∧
    (runNotify failingHandlers (Event.review sampleReview) [] "ipv4:1.2.3.4" [0, 1]).2.ctx.error =
      true :=
  c2_handler_exception_contained failingHandlers (Event.review sampleReview) []
    "ipv4:1.2.3.4" 0 1 ⟨"ValueError", "boom"⟩ rfl

/-- Dig the `meta` dict out of a call's installed logging context. -/
def metaOf (out : Except PyExn EventResponse × PState) : List (String × String) :=
  match out.2.logCtx with
  | some ctx =>
    match ctxLookup ctx "meta" with
    | some (CtxValue.strDict d) => d
    | _ => []
  | none => []

/-- The metadata used in the C3 counterexample: the same key twice. -/
def dupMeta : List (String × String) := [("k", "a"), ("k", "b")]

/-- Counterexample to C3 as stated: with duplicate metadata keys the
`meta` dict does not hold every call-metadata key/value pair — the pair
("k", "a") is in the call metadata but absent from `meta`, which only
keeps the last value for the key. -/
theorem c3_meta_duplicate_key_counterexample :
    ("k", "a") ∈ dupMeta ∧
    metaOf (runNotify okHandlers (Event.review sampleReview) dupMeta "peer" [0, 1]) =
      [("k", "b")] ∧
    ((metaOf (runNotify okHandlers (Event.review sampleReview) dupMeta "peer" [0, 1])).count
      ("k", "a")) = 0 := by
  exact ⟨by decide, rfl, rfl⟩

/-- Claim C3 (amended): the installed LoggingContext holds `type` and
exactly the variant's fields, plus `meta` and `peer` and nothing else;
`meta` holds, for each metadata key, the value of its last occurrence in
the call metadata (duplicate keys collapse to the last value). -/
theorem c3_logging_context_amended (self : EventHandlers) (re : ReviewEvent) (pe : PushEvent)
    (md : List (String × String)) (peerAddr : String) (t0 t1 : ℚ) (k : String) :
    (runNotify self (Event.review re) md peerAddr [t0, t1]).2.logCtx =
      some [("type", CtxValue.str "ReviewEvent"),
            ("url_base", CtxValue.str re.commit_revision.base.internal_repository_url),
            ("url_head", CtxValue.str re.commit_revision.head.internal_repository_url),
            ("commit_base", CtxValue.str re.commit_revision.base.hash),
            ("commit_head", CtxValue.str re.commit_revision.head.hash),
            ("meta", CtxValue.strDict (buildMeta md)),
            ("peer", CtxValue.str peerAddr)] ∧
    (runNotify self (Event.push pe) md peerAddr [t0, t1]).2.logCtx =
      some [("type", CtxValue.str "PushEvent"),
            ("url", CtxValue.str pe.commit_revision.head.internal_repository_url),
            ("head", CtxValue.str pe.commit_revision.head.hash),
            ("count", CtxValue.nat pe.distinct_commits),
            ("meta", CtxValue.strDict (buildMeta md)),
            ("peer", CtxValue.str peerAddr)] ∧
    strDictLookup (buildMeta md) k =
      md.foldl (fun acc kv => if kv.1 = k then some kv.2 else acc) none := by
  refine ⟨?_, ?_, strDictLookup_buildMeta md k⟩
  · cases h : dispatch self (Event.review re) with
    | ok r => rw [runNotify_ok self (Event.review re) md peerAddr t0 t1 r h]; rfl
    | error ex => rw [runNotify_err self (Event.review re) md peerAddr t0 t1 ex h]; rfl
  · cases h : dispatch self (Event.push pe) with
    | ok r => rw [runNotify_ok self (Event.push pe) md peerAddr t0 t1 r h]; rfl
    | error ex => rw [runNotify_err self (Event.push pe) md peerAddr t0 t1 ex h]; rfl

/-- Claim C4: the dispatch stage derives the handler method name from the
event's type name (ReviewEvent to process_review_event, PushEvent to
process_push_event), resolves it on the injected handlers, and invokes it
with the event, returning its result. -/
theorem c4_dispatch_by_name (self : EventHandlers) (re : ReviewEvent) (pe : PushEvent)
    (st : PState) (f : Method) :
    ("process_" ++ snakecase (Event.review re).typeName) = "process_review_event" ∧
    ("process_" ++ snakecase (Event.push pe).typeName) = "process_push_event" ∧
    (self.getattrMethod "process_review_event").isSome = true ∧
    (self.getattrMethod "process_push_event").isSome = true ∧
    handle f self (Event.review re) st = (self.process_review_event re, st) ∧
    handle f self (Event.push pe) st = (self.process_push_event pe, st) :=
  ⟨rfl, rfl, rfl, rfl, rfl, rfl⟩

/-- Claim C8: `timeit` stores the start timestamp on the context before
`log_exceptions` runs, so on a handler raise the elapsed time is always
available and the "FAIL ?" (unknown-duration) log branch is never
reached. -/
theorem c8_start_time_always_set (self : EventHandlers) (e : Event)
    (md : List (String × String)) (peerAddr : String) (t0 t1 : ℚ) :
    (runNotify self e md peerAddr [t0, t1]).2.ctx.start_time = some t0 ∧
    (runNotify self e md peerAddr [t0, t1]).2.logs =
      (match dispatch self e with
       | Except.ok _ => [LogEntry.newEvent e.typeName, LogEntry.ok (t1 - t0)]
       | Except.error _ => [LogEntry.newEvent e.typeName, LogEntry.failWithDelta (t1 - t0)]) ∧
    ((runNotify self e md peerAddr [t0, t1]).2.logs.count LogEntry.failUnknown) = 0 := by
  cases h : dispatch self e with
  | ok r =>
    rw [runNotify_ok self e md peerAddr t0 t1 r h]
    exact ⟨rfl, rfl, rfl⟩
  | error ex =>
    rw [runNotify_err self e md peerAddr t0 t1 ex h]
    exact ⟨rfl, rfl, rfl⟩

/-- Claim C9: on the success path, the response delivered to the caller
is exactly the value the handler returned. -/
theorem c9_success_response_identity (self : EventHandlers) (e : Event)
    (md : List (String × String)) (peerAddr : String) (t0 t1 : ℚ) (r : EventResponse)
    (h : dispatch self e = Except.ok r) :
    (runNotify self e md peerAddr [t0, t1]).1 = Except.ok r := by
  rw [runNotify_ok self e md peerAddr t0 t1 r h]

/-- Witness for C9 at a concrete succeeding handler with a populated
response. -/
theorem c9_response_identity_witness :
    (runNotify succeedingHandlers (Event.review sampleReview) [] "peer" [0, 1]).1 =
      Except.ok richResponse :=
  c9_success_response_identity succeedingHandlers (Event.review sampleReview) []
    "peer" 0 1 richResponse rfl

/-- Modelled from the spec: the gRPC server object is external to this
repository; we keep the construction arguments the listener passes
(`ThreadPoolExecutor(max_workers=n_workers)` and
`maximum_concurrent_rpcs=n_workers`) and an abstract view of its calls:
whether new RPCs are accepted, which RPCs are in flight, and which were
aborted. -/
structure GrpcServer where
  poolMaxWorkers : Nat
  maximumConcurrentRpcs : Nat
  address : String := ""
  n_workers : Nat := 0
  acceptingNew : Bool := true
  inFlight : List Nat := []
  abortedCalls : List Nat := []
  deriving DecidableEq, Repr

/-- Modelled from the spec: `grpc.Server.stop(grace)` per the gRPC
contract (the grpc runtime is external to this repository).  It stops the
acceptance of new RPCs in all cases.  With `grace = none` every active
RPC is aborted immediately; with `grace = some g` every RPC still active
when the grace period of `g` seconds expires is aborted.  The listener
only ever passes `none` or `some 0`, and with a zero-second grace period
no in-flight RPC can complete before it expires, so under both arguments
every in-flight RPC is aborted and none is waited for. -/
def GrpcServer.stopServer (s : GrpcServer) (_grace : Option ℚ) : GrpcServer :=
  { s with
    acceptingNew := false,
    abortedCalls := s.abortedCalls ++ s.inFlight,
    inFlight := [] }

/-- The listener's own state: the wrapped server and the
`threading.Event` flag `_stop_event`. -/
structure ListenerState where
  server : GrpcServer
  stop_event : Bool
  deriving DecidableEq, Repr

/-- `EventListener.__init__`: builds the gRPC server with a thread pool
of `n_workers` workers and `maximum_concurrent_rpcs=n_workers`, records
the address and worker count on it, and creates a cleared stop event. -/
def EventListener.init (address : String) (n_workers : Nat) : ListenerState :=
  { server :=
    { poolMaxWorkers := n_workers,
      maximumConcurrentRpcs := n_workers,
      address := address,
      n_workers := n_workers },
    stop_event := false }

/-- `EventListener.stop`: sets the stop event and calls
`self._server.stop(None if cancel_running else 0)`. -/
def EventListener.stop (st : ListenerState) (cancel_running : Bool) : ListenerState :=
  { st with
    stop_event := true,
    server := st.server.stopServer (if cancel_running then none else some 0) }

/-- What can end the wait inside `block`: another thread setting the stop
event, or a KeyboardInterrupt delivered to the waiting thread. -/
inductive BlockTrigger
  | externalStop
  | keyboardInterrupt
  deriving DecidableEq, Repr

/-- How `threading.Event.wait()` (no timeout) ends, when it ends. -/
inductive WaitResult
  | returned
  | interrupted
  deriving DecidableEq, Repr

/-- `threading.Event.wait()` without a timeout: returns at once when the
flag is already set; otherwise it suspends until another thread sets the
flag or an interrupt arrives (`none` = neither ever happens, so the wait
never ends). -/
def event_wait (flag : Bool) (external : Option BlockTrigger) : Option WaitResult :=
  if flag then some WaitResult.returned
  else
    match external with
    | none => none
    | some BlockTrigger.externalStop => some WaitResult.returned
    | some BlockTrigger.keyboardInterrupt => some WaitResult.interrupted

/-- `EventListener.block`: clears the stop event, then waits on it; a
KeyboardInterrupt raised during the wait is swallowed (`pass`).  The
result is `none` when the wait never ends, else the returned value
(always a normal return, never a raise) and the state after the call. -/
def EventListener.block (st : ListenerState) (external : Option BlockTrigger) :
    Option (Except PyExn Unit × ListenerState) :=
  let cleared : ListenerState := { st with stop_event := false }
  match event_wait cleared.stop_event external with
  | none => none
  | some WaitResult.returned => some (Except.ok (), { cleared with stop_event := true })
  | some WaitResult.interrupted => some (Except.ok (), cleared)

/-- A listener with one RPC (id 7) in flight, for evaluating `stop`. -/
def inflightListener : ListenerState :=
  { server :=
    { poolMaxWorkers := 1,
      maximumConcurrentRpcs := 1,
      address := "0.0.0.0:1234",
      n_workers := 1,
      acceptingNew := true,
      inFlight := [7],
      abortedCalls := [] },
    stop_event := false }

/-- Claim C5, evaluated at the failing input: `stop(cancel_running=False)`
with RPC 7 in flight passes a zero grace period to the gRPC server, which
aborts the in-flight RPC instead of waiting for it to finish; the stop
event is set and a second stop is a no-op. -/
theorem c5_nonforceful_stop_aborts_inflight :
    (EventListener.stop inflightListener false).server.abortedCalls = [7] ∧
    (EventListener.stop inflightListener false).server.inFlight = [] ∧
    (EventListener.stop inflightListener false).server.acceptingNew = false ∧
    (EventListener.stop inflightListener false).stop_event = true ∧
    EventListener.stop (EventListener.stop inflightListener false) false =
      EventListener.stop inflightListener false :=
  ⟨rfl, rfl, rfl, rfl, rfl⟩

/-- Claim C6: `block` suspends until a stop signal and returns normally
(without raising) both on an external stop and on a process interrupt. -/
theorem c6_block_returns_normally (st : ListenerState) :
    EventListener.block st (some BlockTrigger.externalStop) =
      some (Except.ok (), { st with stop_event := true }) ∧
    EventListener.block st (some BlockTrigger.keyboardInterrupt) =
      some (Except.ok (), { st with stop_event := false }) ∧
    EventListener.block st none = none :=
  ⟨rfl, rfl, rfl⟩

/-- Claim C7: the server is always constructed with worker-pool size and
concurrency ceiling both equal to `n_workers`, so the two are equal for
every constructed server. -/
theorem c7_pool_equals_concurrency (address : String) (n_workers : Nat) :
    (EventListener.init address n_workers).server.poolMaxWorkers = n_workers ∧
    (EventListener.init address n_workers).server.maximumConcurrentRpcs = n_workers ∧
    (EventListener.init address n_workers).server.maximumConcurrentRpcs =
      (EventListener.init address n_workers).server.poolMaxWorkers :=
  ⟨rfl, rfl, rfl⟩

/-- Claim C10: `block` clears the stop event before waiting, so a stop
signal asserted before the call never makes `block` return; in
particular `stop` followed by `block` suspends indefinitely absent a new
signal. -/
theorem c10_block_ignores_prior_stop (st : ListenerState) (pre : Bool) :
    EventListener.block { st with stop_event := pre } none = none ∧
    (EventListener.stop st false).stop_event = true ∧
    (EventListener.stop st true).stop_event = true ∧
    EventListener.block (EventListener.stop st false) none = none ∧
    EventListener.block (EventListener.stop st true) none = none :=
  ⟨rfl, rfl, rfl, rfl, rfl⟩

end Lookout
